import Mathlib

/-!
Verification of the WSDOT/WSF API client core: the parameter interpolator,
URL builder and fetch factory of `shared/fetching/api` (createFetchFactory,
interpolateParams, substituteParam, buildUrl, getApiKeyParam) and the
environment detection and fetch-strategy selection of
`shared/fetching/utils/selectFetchStrategy.ts` (isWebEnvironment,
isTestEnvironment, getEnvironmentType, selectFetchStrategy).

JavaScript strings are modelled as Lean `String` (lists of characters);
the JS string primitives the source uses (`String.prototype.includes`,
`String.prototype.replace` with a string pattern, which replaces only the
first occurrence and applies GetSubstitution to the replacement string,
and the regex placeholder scan `/\x7b[^\x7d]+\x7d/g`) are given explicit
executable models below. Thrown exceptions are modelled with
`Except String`; the factory's call shape distinguishes a synchronous throw
from a returned (settled) promise.
-/

namespace WsdotApiClient

/-- Model of `String.prototype.includes` on character lists: true iff
`needle` occurs as a contiguous run inside `hay` (an empty needle always
occurs). -/
def infixOf (needle : List Char) (hay : List Char) : Bool :=
  needle.isPrefixOf hay ||
    match hay with
    | [] => false
    | _ :: t => infixOf needle t

/-- JS `s.includes(pat)`. -/
def strIncludes (s pat : String) : Bool :=
  infixOf pat.toList s.toList

/-- ECMA-262 GetSubstitution, specialised to a string search pattern (no
capture groups, no named captures): in the replacement text, "$$" yields
"$", "$&" yields the matched substring, a dollar before a backquote
(written '\x60') yields `before` (the part of the target string preceding
the match), a dollar before a quote (written '\x27') yields `after` (the
part following the match); any other dollar — including "$n" and "$<",
since a string pattern has no captures — is literal text. -/
def getSubstitution (matched before after : List Char) : List Char → List Char
  | [] => []
  | [c] => [c]
  | c :: d :: t' =>
    if c = '$' then
      if d = '$' then '$' :: getSubstitution matched before after t'
      else if d = '&' then matched ++ getSubstitution matched before after t'
      else if d = '\x60' then before ++ getSubstitution matched before after t'
      else if d = '\x27' then after ++ getSubstitution matched before after t'
      else c :: getSubstitution matched before after (d :: t')
    else c :: getSubstitution matched before after (d :: t')

/-- Model of `String.prototype.replace` with a string pattern on character
lists: replace the first (leftmost) occurrence of `needle` by the
GetSubstitution expansion of `repl`; if `needle` does not occur, the
string is unchanged. `before` accumulates the characters of the target
already passed, so that GetSubstitution can expand the dollar-backquote
and dollar-quote forms. -/
def replaceFirstAux (needle repl : List Char) (before hay : List Char) :
    List Char :=
  if needle.isPrefixOf hay then
    getSubstitution needle before (hay.drop needle.length) repl ++
      hay.drop needle.length
  else
    match hay with
    | [] => []
    | c :: t => c :: replaceFirstAux needle repl (before ++ [c]) t

/-- JS `s.replace(pat, repl)` (string pattern: first occurrence only, with
GetSubstitution applied to `repl`). -/
def replaceFirst (s pat repl : String) : String :=
  String.mk (replaceFirstAux pat.toList repl.toList [] s.toList)

/-- One pass of the regex `/\x7b[^\x7d]+\x7d/g` used by `substituteParam`'s
error message: collect every non-overlapping, leftmost-first match of a
left brace, one or more non-right-brace characters, and a right brace.
The first argument is the scanning state: `none` outside a candidate
match, `some acc` when a left brace has been seen and `acc` holds the
candidate's inner characters so far. -/
def scanPh : Option (List Char) → List Char → List (List Char)
  | none, [] => []
  | none, c :: t => if c = '{' then scanPh (some []) t else scanPh none t
  | some _, [] => []
  | some acc, c :: t =>
    if c = '}' then
      if acc = [] then scanPh none t
      else ('{' :: acc ++ ['}']) :: scanPh none t
    else scanPh (some (acc ++ [c])) t

/-- JS `endpoint.match(/\x7b[^\x7d]+\x7d/g)`, as the list of matches. -/
def matchPlaceholders (s : String) : List String :=
  (scanPh none s.toList).map String.mk

/-- JS `endpoint.match(/\x7b[^\x7d]+\x7d/g)?.join(", ") || "none"`: `match`
returns null when there is no match. -/
def availablePlaceholders (endpoint : String) : String :=
  match matchPlaceholders endpoint with
  | [] => "none"
  | ms => String.intercalate ", " ms

/-- Decimal digit accumulator for the model of JS number-to-string
conversion; `fuel` only bounds the recursion and is always given large
enough (a number `n` has at most `n + 1` digits). -/
def digitsCore : Nat → Nat → List Char → List Char
  | 0, _, acc => acc
  | fuel + 1, n, acc =>
    if n / 10 = 0 then Nat.digitChar (n % 10) :: acc
    else digitsCore fuel (n / 10) (Nat.digitChar (n % 10) :: acc)

/-- Decimal digits of a natural number, most significant first. -/
def natDigits (n : Nat) : List Char :=
  digitsCore (n + 1) n []

def natToString (n : Nat) : String :=
  String.mk (natDigits n)

/-- JS `String(value)` for an integral number value. -/
def intToString (i : Int) : String :=
  if i < 0 then "-" ++ natToString i.natAbs else natToString i.toNat

/-- Local calendar fields of a JS `Date` (what `getFullYear`,
`getMonth() + 1` and `getDate` observe). -/
structure JsDate where
  year : Nat
  month : Nat
  day : Nat
deriving DecidableEq

/-- Modelled from the spec: zero-padding of a decimal rendering to a minimum
width, as used by the `YYYY-MM-DD` date formatting collaborator. -/
def zeroPad (w n : Nat) : String :=
  String.mk (List.replicate (w - (natDigits n).length) '0' ++ natDigits n)

/-- Modelled from the spec: `jsDateToYyyyMmDd` from the `shared/parsing`
module (its source is not part of this corpus). The spec states that a
date value "is formatted as YYYY-MM-DD (zero-padded, using the date's
calendar fields, not its ISO/UTC rendering)". -/
def jsDateToYyyyMmDd (d : JsDate) : String :=
  zeroPad 4 d.year ++ "-" ++ zeroPad 2 d.month ++ "-" ++ zeroPad 2 d.day

/-- The parameter values the endpoint templates receive (`JsonWithDates`
restricted to the scalar values the endpoints use: strings, integral
numbers, booleans and dates). -/
inductive JsonWithDates where
  | str (s : String)
  | num (i : Int)
  | boolean (b : Bool)
  | date (d : JsDate)
deriving DecidableEq

/-- JS `value instanceof Date ? jsDateToYyyyMmDd(value) : String(value)`. -/
def stringifyValue : JsonWithDates → String
  | .date d => jsDateToYyyyMmDd d
  | .str s => s
  | .num i => intToString i
  | .boolean b => if b then "true" else "false"

/-- `substituteParam` of the fetch factory: substitute one `[key, value]`
entry into the partially interpolated endpoint string, or throw when the
placeholder `\x7bkey\x7d` does not occur in it. -/
def substituteParam (endpoint : String) (p : String × JsonWithDates) :
    Except String String :=
  let placeholder := "\x7b" ++ p.1 ++ "\x7d"
  if !(strIncludes endpoint placeholder) then
    .error ("Parameter \"" ++ p.1 ++ "\" was provided but placeholder \"\x7b"
      ++ p.1 ++ "\x7d\" not found in endpoint template. Available placeholders: "
      ++ availablePlaceholders endpoint)
  else
    .ok (replaceFirst endpoint placeholder (stringifyValue p.2))

/-- `interpolateParams` of the fetch factory: `params` is `none` when the
argument is absent (`undefined`); entries are folded in insertion order
with `substituteParam` (JS `Object.entries(params).reduce`). -/
def interpolateParams (endpointTemplate : String)
    (params : Option (List (String × JsonWithDates))) : Except String String :=
  match params with
  | none => .ok endpointTemplate
  | some ps =>
    if ps.length = 0 then .ok endpointTemplate
    else ps.foldlM substituteParam endpointTemplate

/-- `getApiKeyParam`: WSF APIs use "apiaccesscode", WSDOT APIs "AccessCode". -/
def getApiKeyParam (apiPath : String) : String :=
  if strIncludes apiPath "/ferries/" then "apiaccesscode" else "AccessCode"

/-- `buildUrl`: the base URL and API key come from the configuration
collaborator (`configManager.getBaseUrl()` / `getApiKey()`) and are passed
here explicitly. -/
def buildUrl (baseUrl apiKey : String) (apiPath endpoint : String) : String :=
  let apiKeyParam := getApiKeyParam apiPath
  let separator := if strIncludes endpoint "?" then "&" else "?"
  baseUrl ++ apiPath ++ endpoint ++ separator ++ apiKeyParam ++ "=" ++ apiKey

/-- What a call to a generated endpoint function can do for its caller: the
function body is not `async`, so an exception thrown while it runs before
returning is a synchronous throw (`syncThrow`); otherwise the call returns
the strategy's promise, whose settled outcome is `promise (ok _)` or
`promise (error _)` (a rejection). -/
inductive CallOutcome (ε α : Type) where
  | syncThrow (e : ε)
  | promise (r : Except ε α)

/-- The body of the function `createFetch` returns inside
`createFetchFactory`: interpolate the parameters into the endpoint
template, build the URL, delegate to the bound fetch function. `strategy`
maps the URL to the settled outcome of the underlying request's promise. -/
def createFetchCall (baseUrl apiKey apiPath endpointTemplate : String)
    (strategy : String → Except String String)
    (params : Option (List (String × JsonWithDates))) :
    CallOutcome String String :=
  match interpolateParams endpointTemplate params with
  | .error e => .syncThrow e
  | .ok endpoint => .promise (strategy (buildUrl baseUrl apiKey apiPath endpoint))

/-- The ambient process environment (`typeof process !== "undefined"` holds
exactly when the whole record is present): the three variables the source
reads. A field is `none` when the variable is not set. -/
structure ProcEnv where
  nodeEnv : Option String
  vitestWorkerId : Option String
  forceJsonp : Option String
deriving DecidableEq

/-- The ambient browser-like global: `userAgent` is `none` when
`window.navigator?.userAgent` is `undefined` (no navigator or no
user-agent field). -/
structure WindowObj where
  userAgent : Option String
deriving DecidableEq

/-- Ambient environment state observed by the environment detector. -/
structure EnvState where
  proc : Option ProcEnv
  window : Option WindowObj
  document : Bool
deriving DecidableEq

/-- `isWebEnvironment`: window and document globals both present. -/
def isWebEnvironment (env : EnvState) : Bool :=
  env.window.isSome && env.document

/-- `isTestEnvironment`: `NODE_ENV === "test"` or `VITEST_WORKER_ID !==
undefined`, else a window with a truthy user agent containing "jsdom" or
"happy-dom" (an empty user-agent string is falsy in JS and skips the
check), else false. -/
def isTestEnvironment (env : EnvState) : Bool :=
  (match env.proc with
   | some p => p.nodeEnv == some "test" || p.vitestWorkerId.isSome
   | none => false) ||
  (match env.window with
   | some w =>
     match w.userAgent with
     | some ua =>
       if ua = "" then false
       else strIncludes ua "jsdom" || strIncludes ua "happy-dom"
     | none => false
   | none => false)

/-- The three environment classifications the detector returns. -/
inductive EnvironmentType where
  | test
  | web
  | server
deriving DecidableEq

/-- `getEnvironmentType`. -/
def getEnvironmentType (env : EnvState) : EnvironmentType :=
  if isTestEnvironment env then .test
  else if isWebEnvironment env then .web
  else .server

/-- The two transport strategies. -/
inductive FetchStrategy where
  | fetchNative
  | fetchJsonp
deriving DecidableEq

/-- The override check of `selectFetchStrategy`:
`typeof process !== "undefined" && process.env.FORCE_JSONP === "true"`. -/
def forceJsonpOverride (env : EnvState) : Bool :=
  match env.proc with
  | some p => p.forceJsonp == some "true"
  | none => false

/-- `selectFetchStrategy`. The source's `switch` carries a `default:
fetchNative` arm; the classification type has exactly the three listed
values, so the arm is unreachable and the match below is exhaustive. -/
def selectFetchStrategy (env : EnvState) : FetchStrategy :=
  let environment := getEnvironmentType env
  if forceJsonpOverride env then .fetchJsonp
  else
    match environment with
    | .test => .fetchNative
    | .server => .fetchNative
    | .web => .fetchJsonp

/-- Specification-side predicate for the amended C1/C4 claims: each supplied
parameter entry, taken in insertion order, finds its placeholder in the
string as substituted so far (the only check `substituteParam` performs). -/
def eachPlaceholderFound : String → List (String × JsonWithDates) → Bool
  | _, [] => true
  | e, p :: rest =>
    strIncludes e ("\x7b" ++ p.1 ++ "\x7d") &&
      eachPlaceholderFound
        (replaceFirst e ("\x7b" ++ p.1 ++ "\x7d") (stringifyValue p.2)) rest

/-- Specification-side condition of claim C3, in the claim's own words: the
test-marker variable equals "test", or the worker-id variable is present
with any value, or a browser-like global exists whose user-agent string
contains "jsdom" or "happy-dom". -/
def classifyTestSpec (env : EnvState) : Prop :=
  (∃ p, env.proc = some p ∧
    (p.nodeEnv = some "test" ∨ p.vitestWorkerId ≠ none)) ∨
  (∃ w, env.window = some w ∧ ∃ ua, w.userAgent = some ua ∧
    (strIncludes ua "jsdom" = true ∨ strIncludes ua "happy-dom" = true))

/-- Number of starting positions (including the end of the string) at which
`needle` occurs in `hay`; used to state that a placeholder occurs exactly
once. -/
def occCount (needle : List Char) : List Char → Nat
  | [] => if needle.isPrefixOf ([] : List Char) then 1 else 0
  | c :: t => (if needle.isPrefixOf (c :: t) then 1 else 0) + occCount needle t

/-! ### Helper lemmas -/

theorem interpolateParams_some (t : String) (ps : List (String × JsonWithDates)) :
    interpolateParams t (some ps) = List.foldlM substituteParam t ps := by
  cases ps <;> rfl

theorem except_bind_error (e : String) (f : String → Except String String) :
    (Except.error e >>= f) = Except.error e :=
  rfl

theorem except_bind_ok (a : String) (f : String → Except String String) :
    (Except.ok a >>= f) = f a :=
  rfl

theorem isPrefixOf_append_self (n post : List Char) :
    n.isPrefixOf (n ++ post) = true := by
  induction n with
  | nil => simp [List.isPrefixOf]
  | cons c t ih => simp [List.isPrefixOf, ih]

theorem occCount_ge_prefix (n hay : List Char) :
    (if n.isPrefixOf hay then 1 else 0) ≤ occCount n hay := by
  cases hay with
  | nil => simp [occCount]
  | cons c t => simp only [occCount]; omega

theorem occCount_pos (n a b : List Char) : 1 ≤ occCount n (a ++ n ++ b) := by
  induction a with
  | nil =>
    have h := occCount_ge_prefix n (n ++ b)
    rw [isPrefixOf_append_self] at h
    simpa using h
  | cons c a' ih =>
    rw [List.cons_append, List.cons_append, occCount]
    omega

theorem replaceFirstAux_of_unique (n r b4 a b : List Char)
    (h : occCount n (a ++ n ++ b) = 1) :
    replaceFirstAux n r b4 (a ++ n ++ b) =
      a ++ getSubstitution n (b4 ++ a) b r ++ b := by
  induction a generalizing b4 with
  | nil =>
    simp only [List.nil_append, List.append_nil] at h ⊢
    unfold replaceFirstAux
    rw [isPrefixOf_append_self]
    simp
  | cons c a' ih =>
    rw [List.cons_append, List.cons_append] at h ⊢
    have hpos := occCount_pos n a' b
    rw [occCount] at h
    have hpre : n.isPrefixOf (c :: (a' ++ n ++ b)) = false := by
      cases hp : n.isPrefixOf (c :: (a' ++ n ++ b)) with
      | false => rfl
      | true => simp only [hp, if_true] at h; omega
    unfold replaceFirstAux
    rw [hpre]
    simp only [Bool.false_eq_true, if_false]
    rw [hpre] at h
    simp only [Bool.false_eq_true, if_false, Nat.zero_add] at h
    rw [ih (b4 ++ [c]) h]
    simp

theorem getSubstitution_no_dollar (matched before after : List Char) :
    ∀ repl : List Char, '$' ∉ repl →
      getSubstitution matched before after repl = repl
  | [], _ => rfl
  | [_], _ => rfl
  | c :: d :: t', hfree => by
    have hc : ¬ c = '$' := by
      intro h
      apply hfree
      rw [h]
      exact List.mem_cons_self _ _
    have ht : '$' ∉ d :: t' := fun hmem => hfree (List.mem_cons_of_mem c hmem)
    simp only [getSubstitution, if_neg hc]
    rw [getSubstitution_no_dollar matched before after (d :: t') ht]

theorem infixOf_append (n a b : List Char) : infixOf n (a ++ n ++ b) = true := by
  induction a with
  | nil =>
    simp only [List.nil_append]
    unfold infixOf
    rw [isPrefixOf_append_self]
    simp
  | cons c a' ih =>
    rw [List.cons_append, List.cons_append]
    show (n.isPrefixOf (c :: (a' ++ n ++ b)) || infixOf n (a' ++ n ++ b)) = true
    rw [ih]
    simp

theorem digitsCore_length (fuel : Nat) :
    ∀ (n k : Nat) (acc : List Char), 1 ≤ k → n < 10 ^ k → k ≤ fuel →
      (digitsCore fuel n acc).length ≤ k + acc.length := by
  induction fuel with
  | zero => intro n k acc h1 _ h3; omega
  | succ f ih =>
    intro n k acc h1 h2 h3
    unfold digitsCore
    by_cases h : n / 10 = 0
    · simp only [h, if_true, List.length_cons]
      omega
    · simp only [h, if_false]
      have hk : 2 ≤ k := by
        rcases Nat.lt_or_ge k 2 with hlt | hge
        · exfalso
          have hk1 : k = 1 := by omega
          subst hk1
          simp only [pow_one] at h2
          exact h (Nat.div_eq_of_lt h2)
        · exact hge
      have h2' : n / 10 < 10 ^ (k - 1) := by
        apply Nat.div_lt_of_lt_mul
        have hpow : (10 : Nat) ^ (k - 1) * 10 = 10 ^ k := by
          rw [← pow_succ]
          congr 1
          omega
        omega
      have := ih (n / 10) (k - 1) (Nat.digitChar (n % 10) :: acc)
        (by omega) h2' (by omega)
      simp only [List.length_cons] at this
      omega

theorem natDigits_le_four (n : Nat) (h : n ≤ 9999) : (natDigits n).length ≤ 4 := by
  unfold natDigits
  by_cases hn : n / 10 = 0
  · unfold digitsCore
    simp [hn]
  · have hlt : n < 10 ^ 4 := by norm_num; omega
    have hfuel : 4 ≤ n + 1 := by
      rcases Nat.lt_or_ge n 10 with h10 | h10
      · exact absurd (Nat.div_eq_of_lt h10) hn
      · omega
    exact le_trans (digitsCore_length (n + 1) n 4 [] (by omega) hlt hfuel)
      (by simp)

theorem natDigits_le_two (n : Nat) (h : n ≤ 99) : (natDigits n).length ≤ 2 := by
  unfold natDigits
  by_cases hn : n / 10 = 0
  · unfold digitsCore
    simp [hn]
  · have hlt : n < 10 ^ 2 := by norm_num; omega
    have hfuel : 2 ≤ n + 1 := by
      rcases Nat.lt_or_ge n 10 with h10 | h10
      · exact absurd (Nat.div_eq_of_lt h10) hn
      · omega
    exact le_trans (digitsCore_length (n + 1) n 2 [] (by omega) hlt hfuel)
      (by simp)

theorem zeroPad_length (w n : Nat) (h : (natDigits n).length ≤ w) :
    (zeroPad w n).length = w := by
  show (List.replicate (w - (natDigits n).length) '0' ++ natDigits n).length = w
  rw [List.length_append, List.length_replicate]
  omega

theorem classifyTestSpec_iff (env : EnvState) :
    classifyTestSpec env ↔ isTestEnvironment env = true := by
  rcases env with ⟨proc, window, doc⟩
  unfold classifyTestSpec isTestEnvironment
  simp only
  constructor
  · rintro (⟨p, hp, hcond⟩ | ⟨w, hw, ua, hua, hcond⟩)
    · subst hp
      rcases hcond with hne | hvw
      · simp [hne]
      · simp [Option.isSome_iff_ne_none, hvw]
    · subst hw
      have hne : ua ≠ "" := by
        rintro rfl
        rcases hcond with hc | hc <;> simp [strIncludes, infixOf, List.isPrefixOf] at hc
      rcases hcond with hc | hc <;> simp [hua, hne, hc]
  · intro h
    rcases Bool.or_eq_true_iff.mp h with hp | hw
    · left
      cases proc with
      | none => simp at hp
      | some p =>
        refine ⟨p, rfl, ?_⟩
        rcases Bool.or_eq_true_iff.mp hp with h1 | h2
        · exact Or.inl (by simpa using h1)
        · exact Or.inr (by simpa [Option.isSome_iff_ne_none] using h2)
    · right
      rcases window with _ | ⟨uaOpt⟩
      · exact Bool.noConfusion hw
      · rcases uaOpt with _ | ua
        · exact Bool.noConfusion hw
        · replace hw : (if ua = "" then false
              else strIncludes ua "jsdom" || strIncludes ua "happy-dom") =
                true := hw
          by_cases hne : ua = ""
          · rw [if_pos hne] at hw
            exact Bool.noConfusion hw
          · rw [if_neg hne] at hw
            exact ⟨⟨some ua⟩, rfl, ua, rfl, Bool.or_eq_true_iff.mp hw⟩

/-- C3: `getEnvironmentType` returns `test` exactly when the test signals of
the claim hold (test marker equal to "test", worker id present, or a
browser-like user agent containing "jsdom"/"happy-dom"), with priority
over the browser-global check; otherwise `web` when window and document
globals are both present; otherwise `server`. -/
theorem c3_getEnvironmentType (env : EnvState) :
    (classifyTestSpec env → getEnvironmentType env = .test) ∧
    (¬ classifyTestSpec env →
      ((env.window.isSome = true ∧ env.document = true) →
          getEnvironmentType env = .web) ∧
      (¬ (env.window.isSome = true ∧ env.document = true) →
          getEnvironmentType env = .server)) := by
  have hiff := classifyTestSpec_iff env
  refine ⟨fun h => ?_, fun h => ?_⟩
  · simp [getEnvironmentType, hiff.mp h]
  · have htest : isTestEnvironment env = false := by
      cases hit : isTestEnvironment env with
      | false => rfl
      | true => exact absurd (hiff.mpr hit) h
    refine ⟨fun hw => ?_, fun hw => ?_⟩
    · have hweb : isWebEnvironment env = true := by
        simp [isWebEnvironment, hw.1, hw.2]
      simp [getEnvironmentType, htest, hweb]
    · have hweb : isWebEnvironment env = false := by
        unfold isWebEnvironment
        cases hws : env.window.isSome <;> cases hd : env.document <;>
          simp_all
      simp [getEnvironmentType, htest, hweb]

/-- C3 witness: with the test marker set and full browser globals present,
classification is `test` (test signals take priority over `web`). -/
theorem c3_witness :
    getEnvironmentType
        ⟨some ⟨some "test", none, none⟩, some ⟨some "Mozilla"⟩, true⟩ =
      EnvironmentType.test :=
  (c3_getEnvironmentType ⟨some ⟨some "test", none, none⟩,
      some ⟨some "Mozilla"⟩, true⟩).1 (Or.inl ⟨_, rfl, Or.inl rfl⟩)

/-- C2: with the FORCE_JSONP override set to "true" the selector returns the
JSONP strategy regardless of classification; otherwise classification
`test` or `server` yields the native strategy and `web` yields JSONP (the
classification type has exactly these three values, so the source's
`default: fetchNative` arm is unreachable). -/
theorem c2_selectFetchStrategy (env : EnvState) :
    (forceJsonpOverride env = true → selectFetchStrategy env = .fetchJsonp) ∧
    (forceJsonpOverride env = false →
      ((getEnvironmentType env = .test ∨ getEnvironmentType env = .server) →
          selectFetchStrategy env = .fetchNative) ∧
      (getEnvironmentType env = .web → selectFetchStrategy env = .fetchJsonp)) := by
  refine ⟨fun h => ?_, fun h => ⟨fun he => ?_, fun he => ?_⟩⟩
  · simp [selectFetchStrategy, h]
  · rcases he with he | he <;> simp [selectFetchStrategy, h, he]
  · simp [selectFetchStrategy, h, he]

/-- C2 witness: FORCE_JSONP="true" forces JSONP even when the classification
is `test` (here NODE_ENV="test"). -/
theorem c2_witness :
    selectFetchStrategy ⟨some ⟨some "test", none, some "true"⟩, none, false⟩ =
      FetchStrategy.fetchJsonp :=
  (c2_selectFetchStrategy
    ⟨some ⟨some "test", none, some "true"⟩, none, false⟩).1 rfl

/-- C9: interpolation with an absent (`undefined`) or empty parameter map
returns the template unchanged. -/
theorem c9_interpolation_identity (template : String) :
    interpolateParams template none = .ok template ∧
    interpolateParams template (some []) = .ok template :=
  ⟨rfl, rfl⟩

/-- C10: the fold substitutes into the partially substituted string, not the
original template: on template "/\x7ba\x7d/\x7bb\x7d" with a = "\x7bb\x7d"
processed before b = "X", the intermediate string after a's substitution
is "/\x7bb\x7d/\x7bb\x7d", and b's substitution then replaces the first
occurrence of "\x7bb\x7d" — the one a's inserted value introduced — giving
"/X/\x7bb\x7d" rather than "/\x7bb\x7d/X". -/
theorem c10_fold_over_partial :
    interpolateParams "/\x7ba\x7d/\x7bb\x7d"
        (some [("a", JsonWithDates.str "\x7bb\x7d"),
               ("b", JsonWithDates.str "X")]) =
      .ok "/X/\x7bb\x7d" ∧
    List.foldlM substituteParam "/\x7ba\x7d/\x7bb\x7d"
        [("a", JsonWithDates.str "\x7bb\x7d")] = .ok "/\x7bb\x7d/\x7bb\x7d" :=
  ⟨rfl, rfl⟩

/-- C6: `buildUrl` concatenates base, API path, endpoint, separator and the
key parameter: the separator is "&" when the endpoint already contains "?"
and "?" otherwise, and the key parameter name is "apiaccesscode" when the
API path contains "/ferries/" and "AccessCode" otherwise. -/
theorem c6_buildUrl (baseUrl apiKey apiPath endpoint : String) :
    buildUrl baseUrl apiKey apiPath endpoint =
      baseUrl ++ apiPath ++ endpoint ++
        (if strIncludes endpoint "?" then "&" else "?") ++
        (if strIncludes apiPath "/ferries/" then "apiaccesscode"
         else "AccessCode") ++
        "=" ++ apiKey :=
  rfl

/-- C1 counterexample: an unsatisfied template placeholder is NOT a hard
error. On template "/\x7ba\x7d/\x7bb\x7d" with only parameter a supplied,
interpolation succeeds and the returned string still contains the
placeholder "\x7bb\x7d". -/
theorem c1_counterexample :
    interpolateParams "/\x7ba\x7d/\x7bb\x7d"
        (some [("a", JsonWithDates.str "1")]) = .ok "/1/\x7bb\x7d" ∧
    strIncludes "/1/\x7bb\x7d" "\x7bb\x7d" = true :=
  ⟨rfl, rfl⟩

/-- C1 (amended): interpolation checks only the supplied-parameter
direction. It succeeds exactly when every supplied entry, in insertion
order, finds its placeholder in the string as substituted so far; a
template placeholder with no corresponding supplied parameter is never
checked and is left in the returned string verbatim. -/
theorem c1_no_missing_placeholder_check (template : String)
    (ps : List (String × JsonWithDates)) :
    (∃ s, interpolateParams template (some ps) = .ok s) ↔
      eachPlaceholderFound template ps = true := by
  rw [interpolateParams_some]
  induction ps generalizing template with
  | nil => exact iff_of_true ⟨template, rfl⟩ rfl
  | cons p rest ih =>
    rw [List.foldlM_cons]
    cases h : strIncludes template ("\x7b" ++ p.1 ++ "\x7d") with
    | false =>
      have hs : substituteParam template p =
          .error ("Parameter \"" ++ p.1 ++ "\" was provided but placeholder \"\x7b"
            ++ p.1 ++ "\x7d\" not found in endpoint template. Available placeholders: "
            ++ availablePlaceholders template) := by
        simp [substituteParam, h]
      rw [hs, except_bind_error]
      simp [eachPlaceholderFound, h]
    | true =>
      have hs : substituteParam template p =
          .ok (replaceFirst template ("\x7b" ++ p.1 ++ "\x7d")
            (stringifyValue p.2)) := by
        simp [substituteParam, h]
      rw [hs, except_bind_ok]
      simp only [eachPlaceholderFound, h, Bool.true_and]
      exact ih _

/-- C1 witness: on a template whose placeholder b is unsatisfied, the
success of interpolation is decided by the supplied entries alone. -/
theorem c1_witness :
    eachPlaceholderFound "/\x7ba\x7d/\x7bb\x7d"
        [("a", JsonWithDates.str "1")] = true :=
  (c1_no_missing_placeholder_check "/\x7ba\x7d/\x7bb\x7d"
    [("a", JsonWithDates.str "1")]).mp ⟨"/1/\x7bb\x7d", rfl⟩

/-- C4 counterexample, in two parts. First, a parameter key absent from the
original template need not fail at all: on template "/\x7ba\x7d" with
a = "\x7bb\x7d" before b = "X", key b does not occur in the template as
"\x7bb\x7d", yet interpolation succeeds. Second, when the error is
raised, its message lists the placeholders of the partially substituted
string, not of the original template: on "/\x7ba\x7d/\x7bb\x7d" with
entries a = "1" then c = "2", the message lists only "\x7bb\x7d" even
though "\x7ba\x7d" is a placeholder of the original template. -/
theorem c4_counterexample :
    interpolateParams "/\x7ba\x7d"
        (some [("a", JsonWithDates.str "\x7bb\x7d"),
               ("b", JsonWithDates.str "X")]) = .ok "/X" ∧
    interpolateParams "/\x7ba\x7d/\x7bb\x7d"
        (some [("a", JsonWithDates.str "1"), ("c", JsonWithDates.str "2")]) =
      .error ("Parameter \"c\" was provided but placeholder \"\x7bc\x7d\"" ++
        " not found in endpoint template. Available placeholders: \x7bb\x7d") ∧
    strIncludes "/\x7ba\x7d/\x7bb\x7d" "\x7ba\x7d" = true ∧
    strIncludes ("Parameter \"c\" was provided but placeholder \"\x7bc\x7d\"" ++
        " not found in endpoint template. Available placeholders: \x7bb\x7d")
      "\x7ba\x7d" = false :=
  ⟨rfl, rfl, rfl, rfl⟩

/-- C4 (amended): when an entry's key has no placeholder in the current
partially substituted string at its turn, interpolation fails with an
error identifying that placeholder and listing every placeholder of the
current partially substituted string (not of the original template); a
key absent from the original template does not fail when an earlier
substitution introduced its placeholder. -/
theorem c4_mismatch_error (template current : String)
    (pre : List (String × JsonWithDates)) (k : String) (v : JsonWithDates)
    (rest : List (String × JsonWithDates))
    (hpre : List.foldlM substituteParam template pre = .ok current)
    (hmiss : strIncludes current ("\x7b" ++ k ++ "\x7d") = false) :
    interpolateParams template (some (pre ++ (k, v) :: rest)) =
      .error ("Parameter \"" ++ k ++ "\" was provided but placeholder \"\x7b"
        ++ k ++ "\x7d\" not found in endpoint template. Available placeholders: "
        ++ availablePlaceholders current) := by
  rw [interpolateParams_some]
  induction pre generalizing template with
  | nil =>
    have heq : template = current := Except.ok.inj hpre
    subst heq
    simp [List.foldlM_cons, substituteParam, hmiss, except_bind_error]
  | cons p pre' ih =>
    rw [List.cons_append, List.foldlM_cons]
    rw [List.foldlM_cons] at hpre
    cases h : substituteParam template p with
    | error e =>
      rw [h, except_bind_error] at hpre
      exact Except.noConfusion hpre
    | ok t1 =>
      rw [h, except_bind_ok] at hpre
      exact ih t1 hpre

/-- C4 witness: concrete failing interpolation whose message lists the
remaining placeholder of the partially substituted string. -/
theorem c4_witness :
    interpolateParams "/\x7ba\x7d/\x7bb\x7d"
        (some [("a", JsonWithDates.str "1"), ("c", JsonWithDates.str "2")]) =
      .error ("Parameter \"" ++ "c" ++ "\" was provided but placeholder \"\x7b"
        ++ "c" ++ "\x7d\" not found in endpoint template. Available placeholders: "
        ++ availablePlaceholders "/1/\x7bb\x7d") :=
  c4_mismatch_error "/\x7ba\x7d/\x7bb\x7d" "/1/\x7bb\x7d"
    [("a", JsonWithDates.str "1")] "c" (JsonWithDates.str "2") [] rfl rfl

/-- C7 counterexample: a TemplateMismatch is NOT delivered as a rejected
promise. The endpoint function's body is not `async`, so the interpolation
error thrown inside it propagates as a synchronous throw before any
promise exists and before the strategy (the network) is invoked. -/
theorem c7_counterexample :
    createFetchCall "https://www.wsdot.wa.gov" "KEY" "/api/endpoint" "/x"
        (fun _ => Except.ok "DATA") (some [("a", JsonWithDates.str "1")]) =
      CallOutcome.syncThrow ("Parameter \"a\" was provided but placeholder " ++
        "\"\x7ba\x7d\" not found in endpoint template. " ++
        "Available placeholders: none") :=
  rfl

/-- C7 (amended): an interpolation failure is raised synchronously at call
time, unchanged and independent of the strategy — so before any network
activity; when interpolation succeeds, the call returns the strategy's
promise unchanged, so a strategy failure reaches the caller as exactly the
strategy's rejection. No error is swallowed. -/
theorem c7_error_propagation (baseUrl apiKey apiPath template : String)
    (strategy : String → Except String String)
    (params : Option (List (String × JsonWithDates))) :
    (∀ e, interpolateParams template params = .error e →
        createFetchCall baseUrl apiKey apiPath template strategy params =
          .syncThrow e) ∧
    (∀ endpoint, interpolateParams template params = .ok endpoint →
        createFetchCall baseUrl apiKey apiPath template strategy params =
          .promise (strategy (buildUrl baseUrl apiKey apiPath endpoint))) := by
  refine ⟨fun e he => ?_, fun endpoint he => ?_⟩ <;> simp [createFetchCall, he]

/-- C7 witness: a strategy failure reaches the caller as the strategy's own
promise rejection, unchanged. -/
theorem c7_witness :
    createFetchCall "B" "K" "/p" "/ok" (fun _ => Except.error "HTTP 500")
        none = CallOutcome.promise (Except.error "HTTP 500") :=
  (c7_error_propagation "B" "K" "/p" "/ok" (fun _ => Except.error "HTTP 500")
    none).2 "/ok" rfl

/-- C5 counterexample: substitution is NOT a literal splice of the
stringified value. JS `String.prototype.replace` applies GetSubstitution
to the replacement even when the search pattern is a plain string, so
interpolating "/a/\x7bx\x7d/b" with x = "$$" yields "/a/$/b" — not the
"/a/$$/b" the claim's "literal text ... no other characters change"
requires. -/
theorem c5_counterexample :
    interpolateParams "/a/\x7bx\x7d/b"
        (some [("x", JsonWithDates.str "$$")]) = .ok "/a/$/b" ∧
    "/a/$/b" ≠ "/a/$$/b" :=
  ⟨rfl, by decide⟩

/-- C5 (amended): when the template decomposes as pre ++ "\x7bx\x7d" ++
post with exactly one occurrence of the placeholder, interpolating the
single-entry map x = v replaces that occurrence by the GetSubstitution
expansion of the stringified (or date-formatted) value — "$$" collapses
to "$", "$&" reinserts the matched placeholder, a dollar-backquote or a
dollar-quote pair inserts the text before or after the match, any other
character is copied — and changes no other character of the template; in
particular (second conjunct) a replacement containing no dollar is
inserted as its literal text, as the original claim stated. The
hypothesis `hnum` restricts numeric values to JS safe integers, the
range on which the model's plain-decimal `String(n)` is faithful (JS
renders magnitudes at or above 1e21 in exponential notation and cannot
represent all larger integers exactly). -/
theorem c5_single_substitution (x : String) (v : JsonWithDates)
    (pre post : List Char)
    (huniq : occCount ("\x7b" ++ x ++ "\x7d").toList
        (pre ++ ("\x7b" ++ x ++ "\x7d").toList ++ post) = 1)
    (hnum : ∀ i : Int, v = JsonWithDates.num i → i.natAbs ≤ 2 ^ 53) :
    interpolateParams
        (String.mk (pre ++ ("\x7b" ++ x ++ "\x7d").toList ++ post))
        (some [(x, v)]) =
      .ok (String.mk (pre ++
        getSubstitution ("\x7b" ++ x ++ "\x7d").toList pre post
          (stringifyValue v).toList ++ post)) ∧
    (∀ repl matched before after : List Char, '$' ∉ repl →
      getSubstitution matched before after repl = repl) := by
  constructor
  · rw [interpolateParams_some, List.foldlM_cons]
    have hinc : strIncludes
        (String.mk (pre ++ ("\x7b" ++ x ++ "\x7d").toList ++ post))
        ("\x7b" ++ x ++ "\x7d") = true :=
      infixOf_append _ pre post
    have hs : substituteParam
        (String.mk (pre ++ ("\x7b" ++ x ++ "\x7d").toList ++ post)) (x, v) =
        .ok (replaceFirst
          (String.mk (pre ++ ("\x7b" ++ x ++ "\x7d").toList ++ post))
          ("\x7b" ++ x ++ "\x7d") (stringifyValue v)) := by
      show (if !(strIncludes
          (String.mk (pre ++ ("\x7b" ++ x ++ "\x7d").toList ++ post))
          ("\x7b" ++ x ++ "\x7d")) then
            Except.error ("Parameter \"" ++ x ++ "\" was provided but placeholder \"\x7b"
              ++ x ++ "\x7d\" not found in endpoint template. Available placeholders: "
              ++ availablePlaceholders
                (String.mk (pre ++ ("\x7b" ++ x ++ "\x7d").toList ++ post)))
          else
            Except.ok (replaceFirst
              (String.mk (pre ++ ("\x7b" ++ x ++ "\x7d").toList ++ post))
              ("\x7b" ++ x ++ "\x7d") (stringifyValue v))) = _
      rw [hinc]
      rfl
    rw [hs, except_bind_ok, List.foldlM_nil]
    have hr : replaceFirst
        (String.mk (pre ++ ("\x7b" ++ x ++ "\x7d").toList ++ post))
        ("\x7b" ++ x ++ "\x7d") (stringifyValue v) =
        String.mk (pre ++
          getSubstitution ("\x7b" ++ x ++ "\x7d").toList pre post
            (stringifyValue v).toList ++ post) := by
      show String.mk (replaceFirstAux ("\x7b" ++ x ++ "\x7d").toList
        (stringifyValue v).toList []
        (pre ++ ("\x7b" ++ x ++ "\x7d").toList ++ post)) = _
      rw [replaceFirstAux_of_unique _ _ _ _ _ huniq]
      simp
    rw [hr]
    rfl
  · intro repl matched before after hfree
    exact getSubstitution_no_dollar matched before after repl hfree

/-- C5 witness: template "/a/\x7bx\x7d/b" with x = "$$" yields "/a/$/b",
the GetSubstitution expansion ("$$" collapses to "$"). -/
theorem c5_witness :
    interpolateParams
        (String.mk ("/a/".toList ++ ("\x7b" ++ "x" ++ "\x7d").toList ++
          "/b".toList))
        (some [("x", JsonWithDates.str "$$")]) =
      .ok (String.mk ("/a/".toList ++
        getSubstitution ("\x7b" ++ "x" ++ "\x7d").toList "/a/".toList
          "/b".toList (stringifyValue (JsonWithDates.str "$$")).toList ++
        "/b".toList)) ∧
    (∀ repl matched before after : List Char, '$' ∉ repl →
      getSubstitution matched before after repl = repl) :=
  c5_single_substitution "x" (JsonWithDates.str "$$") "/a/".toList
    "/b".toList (by decide) (fun i h => JsonWithDates.noConfusion h)

/-- C8: a date-valued parameter is stringified as the zero-padded
YYYY-MM-DD rendering of its local calendar fields — a 10-character string
for calendar fields in range (the formatter itself, `jsDateToYyyyMmDd`,
is modelled from the spec since its module is not part of this corpus) —
and the example endpoint "/schedule/\x7btripDate\x7d/\x7brouteId\x7d"
with tripDate = 2024-01-15 and routeId = 5 interpolates to
"/schedule/2024-01-15/5". -/
theorem c8_date_formatting :
    (∀ d : JsDate, d.year ≤ 9999 → d.month ≤ 99 → d.day ≤ 99 →
      stringifyValue (.date d) =
          zeroPad 4 d.year ++ "-" ++ zeroPad 2 d.month ++ "-" ++
            zeroPad 2 d.day ∧
        (stringifyValue (.date d)).length = 10) ∧
    interpolateParams "/schedule/\x7btripDate\x7d/\x7brouteId\x7d"
        (some [("tripDate", JsonWithDates.date ⟨2024, 1, 15⟩),
               ("routeId", JsonWithDates.num 5)]) =
      .ok "/schedule/2024-01-15/5" := by
  constructor
  · intro d hy hm hd
    refine ⟨rfl, ?_⟩
    show (jsDateToYyyyMmDd d).length = 10
    unfold jsDateToYyyyMmDd
    rw [String.length_append, String.length_append, String.length_append,
      String.length_append]
    rw [zeroPad_length 4 _ (natDigits_le_four _ hy),
      zeroPad_length 2 _ (natDigits_le_two _ hm),
      zeroPad_length 2 _ (natDigits_le_two _ hd)]
    rfl
  · rfl

/-- C8 witness: concrete formatting of the local calendar date 2024-01-15. -/
theorem c8_witness :
    stringifyValue (JsonWithDates.date ⟨2024, 1, 15⟩) =
        zeroPad 4 2024 ++ "-" ++ zeroPad 2 1 ++ "-" ++ zeroPad 2 15 ∧
      (stringifyValue (JsonWithDates.date ⟨2024, 1, 15⟩)).length = 10 :=
  c8_date_formatting.1 ⟨2024, 1, 15⟩ (by decide) (by decide) (by decide)

end WsdotApiClient
